import Mathlib

/-- JavaScript strings are modelled as lists of characters (UTF-16 code units). -/
abbrev Str := List Char

/-- Whether the candidate is a leading segment of the haystack
(the semantics of JavaScript `String.prototype.startsWith`). -/
def leadsWith : Str → Str → Bool
  | [], _ => true
  | _ :: _, [] => false
  | a :: as, b :: bs => a == b && leadsWith as bs

/-- Substring occurrence test, the semantics of JavaScript
`String.prototype.includes`. -/
def strHas (needle : Str) : Str → Bool
  | [] => leadsWith needle []
  | c :: rest => leadsWith needle (c :: rest) || strHas needle rest

/-- Character-wise lower-casing, modelling `String.prototype.toLowerCase`
(ASCII-faithful; the application only compares ASCII city/address text). -/
def toLowerStr (s : Str) : Str := s.map Char.toLower

/-- Three-way comparison of two characters by code unit. -/
def cmpChar (a b : Char) : Ordering :=
  if a.toNat < b.toNat then .lt else if b.toNat < a.toNat then .gt else .eq

/-- Lexicographic three-way comparison of two strings by code units, the
comparison underlying JavaScript relational operators on strings (and the
model for `localeCompare` under a code-unit collation). -/
def cmpStr : Str → Str → Ordering
  | [], [] => .eq
  | [], _ :: _ => .lt
  | _ :: _, [] => .gt
  | a :: as, b :: bs =>
    match cmpChar a b with
    | .lt => .lt
    | .gt => .gt
    | .eq => cmpStr as bs

/-- Whether an ordering outcome is "less than or equal". -/
def ordLe : Ordering → Bool
  | .gt => false
  | _ => true

/-- JavaScript string comparison `a <= b`. -/
def jsLeStr (a b : Str) : Bool := ordLe (cmpStr a b)

/-- Splitting a string at every occurrence of a separator character, the
semantics of JavaScript `String.prototype.split` with a one-character
separator. -/
def splitC (c : Char) : Str → List Str
  | [] => [[]]
  | x :: xs =>
    match splitC c xs with
    | [] => [[]]
    | r :: rs => if x == c then [] :: r :: rs else (x :: r) :: rs

/-- Joining strings with a separator character, the semantics of JavaScript
`Array.prototype.join` with a one-character separator. -/
def intercalateC (c : Char) : List Str → Str
  | [] => []
  | [s] => s
  | s :: t :: rest => s ++ c :: intercalateC c (t :: rest)

/-- Stable insertion of an element into a sorted list: the element goes in
front of the first entry it compares less-or-equal to. -/
def insertLe {α : Type} (le : α → α → Bool) (x : α) : List α → List α
  | [] => [x]
  | y :: ys => if le x y then x :: y :: ys else y :: insertLe le x ys

/-- Stable sort by repeated insertion.  `Array.prototype.sort` is required to
be stable, and a stable sort's output is uniquely determined by the
comparator, so any stable sorting algorithm is a faithful model. -/
def isort {α : Type} (le : α → α → Bool) : List α → List α
  | [] => []
  | x :: xs => insertLe le x (isort le xs)

/-- JavaScript `a || b` for strings: the empty string is falsy. -/
def strOr (a b : Str) : Str := if a = [] then b else a

/-- JavaScript `v || null` for an optional string: both `undefined`/`null`
and the empty string collapse to `null`. -/
def orNullStr : Option Str → Option Str
  | none => none
  | some s => if s = [] then none else some s

/-- JavaScript `v || ''` for an optional string. -/
def orEmptyStr : Option Str → Str
  | none => []
  | some s => s

/-- Closed set of visit outcomes (`VisitResult` in `src/types/index.ts`). -/
inductive VisitResult : Type
  | notHome
  | scheduledDemo
  | dnd
  | alreadyHasSystem
  | notInterested
  | interestedCallBack
  | soldClosed
deriving DecidableEq

/-- String rendering of each visit outcome, exactly the literals of the
TypeScript union type. -/
def resultStr : VisitResult → Str
  | .notHome => "Not Home".data
  | .scheduledDemo => "Scheduled Demo".data
  | .dnd => "DND (Do Not Disturb)".data
  | .alreadyHasSystem => "Already Has System".data
  | .notInterested => "Not Interested".data
  | .interestedCallBack => "Interested - Call Back".data
  | .soldClosed => "Sold/Closed".data

/-- Provenance tag of a home record (`Home.source` in `src/types/index.ts`,
values `'manual' | 'corelogic'`). -/
inductive Source : Type
  | manual
  | corelogic
deriving DecidableEq

/-- City entity (`City` in `src/types/index.ts`). -/
structure City where
  id : Str
  name : Str
deriving DecidableEq

/-- Subdivision entity (`Subdivision` in `src/types/index.ts`). -/
structure Subdivision where
  id : Str
  name : Str
  city_id : Str
deriving DecidableEq

/-- Home visit record together with its joined relations, modelling the
`HomeWithRelations` shape fetched by `ViewHomes`.  Numeric coordinates are
modelled as integers (their exact value is never computed with, only carried
and rendered). -/
structure Home where
  id : Str
  city_id : Option Str
  subdivision_id : Option Str
  street_name : Str
  address : Str
  result : Option VisitResult
  contact_name : Option Str
  phone_number : Option Str
  follow_up_date : Option Str
  notes : Option Str
  canvasser_id : Option Str
  date_visited : Str
  source : Source
  latitude : Option Int
  longitude : Option Int
  created_at : Str
  cities : Option City
  subdivisions : Option Subdivision
deriving DecidableEq

/-- Filter control state of the `ViewHomes` page: five text inputs whose
empty value (falsy in JavaScript) means "filter inactive". -/
structure Filters where
  cityFilter : Str
  resultFilter : Str
  searchQuery : Str
  startDate : Str
  endDate : Str
deriving DecidableEq

/-- Free-text search predicate of `ViewHomes`: case-insensitive substring
match of the query against the address, the street name, or the contact name
(absent contact name never matches). -/
def searchPred (query : Str) (h : Home) : Bool :=
  let q := toLowerStr query
  strHas q (toLowerStr h.address) ||
  strHas q (toLowerStr h.street_name) ||
  (match h.contact_name with
   | some cn => strHas q (toLowerStr cn)
   | none => false)

/-- Conditional filtering: the list is filtered by the predicate only when
the guard holds (a filter control with a non-empty value). -/
def filterWhen {α : Type} (c : Prop) [Decidable c] (p : α → Bool)
    (l : List α) : List α :=
  if c then l.filter p else l

/-- Filtering stage of the `ViewHomes` filter `useEffect`
(`src/pages/ViewHomes.tsx` lines 63-93): the five filters are applied in
sequence, each only when its control value is non-empty. -/
def applyFilters (f : Filters) (homes : List Home) : List Home :=
  filterWhen (f.endDate ≠ []) (fun h => jsLeStr h.date_visited f.endDate)
    (filterWhen (f.startDate ≠ []) (fun h => jsLeStr f.startDate h.date_visited)
      (filterWhen (f.searchQuery ≠ []) (searchPred f.searchQuery)
        (filterWhen (f.resultFilter ≠ [])
          (fun h => decide (h.result.map resultStr = some f.resultFilter))
          (filterWhen (f.cityFilter ≠ [])
            (fun h => decide (h.cities.map City.name = some f.cityFilter))
            homes))))

/-- City name of a home with the empty-string fallback
(`home.cities?.name || ''`). -/
def cityNameOr (h : Home) : Str :=
  match h.cities with
  | some c => c.name
  | none => []

/-- Sorting stage of the `ViewHomes` filter `useEffect`
(`src/pages/ViewHomes.tsx` lines 96-117).  `dateVal` stands for the external
`new Date(s).getTime()` conversion; each JavaScript comparator `c` is turned
into the boolean relation `c a b <= 0` of the stable sort it drives. -/
def sortHomes (dateVal : Str → Int) (sortBy : Str) (l : List Home) : List Home :=
  if sortBy = "date_visited_desc".data then
    isort (fun a b => decide (dateVal b.date_visited ≤ dateVal a.date_visited)) l
  else if sortBy = "date_visited_asc".data then
    isort (fun a b => decide (dateVal a.date_visited ≤ dateVal b.date_visited)) l
  else if sortBy = "address_asc".data then
    isort (fun a b => ordLe (cmpStr a.address b.address)) l
  else if sortBy = "address_desc".data then
    isort (fun a b => ordLe (cmpStr b.address a.address)) l
  else if sortBy = "city_asc".data then
    isort (fun a b => ordLe (cmpStr (cityNameOr a) (cityNameOr b))) l
  else if sortBy = "city_desc".data then
    isort (fun a b => ordLe (cmpStr (cityNameOr b) (cityNameOr a))) l
  else l

/-- Complete derivation of the visible list on the `ViewHomes` page: filter,
then sort. -/
def viewHomesList (dateVal : Str → Int) (f : Filters) (sortBy : Str)
    (homes : List Home) : List Home :=
  sortHomes dateVal sortBy (applyFilters f homes)

/-- Whether a field must be quoted in the CSV export: it contains a comma, a
double quote, or a newline (`src/lib/export.ts`, `escapeCSVField`). -/
def hasSepChar (f : Str) : Bool :=
  f.any (fun c => c == ',' || c == '"' || c == '\n')

/-- Doubling of every double quote in a field, the semantics of
`field.replace(/"/g, '""')`. -/
def doubleQuotes : Str → Str
  | [] => []
  | c :: rest => if c == '"' then '"' :: '"' :: doubleQuotes rest else c :: doubleQuotes rest

/-- Declarative statement of quote doubling: every character maps to itself
except the double quote, which is emitted twice. -/
def doubledSpec (f : Str) : Str :=
  (f.map (fun c => if c = '"' then ['"', '"'] else [c])).flatten

/-- Quoting of a single CSV field (`escapeCSVField` in `src/lib/export.ts`):
fields containing a separator are wrapped in double quotes with embedded
quotes doubled, all other fields pass through verbatim. -/
def escapeCSVField (f : Str) : Str :=
  if hasSepChar f then '"' :: (doubleQuotes f ++ ['"']) else f

/-- Header row of the CSV export (`exportToCSV` in `src/lib/export.ts`). -/
def headersCSV : List Str :=
  ["Date Visited".data, "Address".data, "Street".data, "City".data,
   "Subdivision".data, "Result".data, "Contact Name".data, "Phone Number".data,
   "Follow Up Date".data, "Notes".data, "Latitude".data, "Longitude".data,
   "Created At".data]

/-- Subdivision name of a home with the empty-string fallback. -/
def subNameOr (h : Home) : Str :=
  match h.subdivisions with
  | some s => s.name
  | none => []

/-- Decimal rendering of an optional coordinate
(`home.latitude?.toString() || ''`). -/
def coordStr : Option Int → Str
  | some n => (toString n).data
  | none => []

/-- Row of thirteen field values exported for one home (`exportToCSV` in
`src/lib/export.ts`, lines 35-49).  `fmt` stands for the external
locale-dependent `new Date(...).toLocaleString()` rendering. -/
def exportRow (fmt : Str → Str) (h : Home) : List Str :=
  [h.date_visited, h.address, h.street_name, cityNameOr h, subNameOr h,
   (match h.result with | some r => resultStr r | none => []),
   orEmptyStr h.contact_name, orEmptyStr h.phone_number,
   orEmptyStr h.follow_up_date, orEmptyStr h.notes,
   coordStr h.latitude, coordStr h.longitude, fmt h.created_at]

/-- CSV text produced by `exportToCSV` (`src/lib/export.ts`): header line
followed by one line per home, every field escaped, fields joined by commas
and lines by newlines.  An empty list produces no file (the function alerts
and returns early), modelled as `none`. -/
def exportToCSV (fmt : Str → Str) (homes : List Home) : Option Str :=
  if homes = [] then none
  else some (intercalateC '\n'
    ((intercalateC ',' (headersCSV.map escapeCSVField)) ::
     homes.map (fun h => intercalateC ',' ((exportRow fmt h).map escapeCSVField))))

/-- Re-parsing of delimited text as described by the round-trip property:
split on newline, then on comma, and discard the first line as a header. -/
def reparseCSV (s : Str) : List (List Str) :=
  ((splitC '\n' s).drop 1).map (splitC ',')

/-- Parsed CSV import row (`ParsedHome` in the import page). -/
structure ParsedHome where
  address : Str
  street_name : Str
  city_name : Str
  subdivision_name : Option Str
  notes : Option Str
deriving DecidableEq

/-- Whether a line survives the blank-line filter
`text.split('\n').filter((line) => line.trim())`: it must contain a
non-whitespace character. -/
def lineKept (line : Str) : Bool := line.any (fun c => !c.isWhitespace)

/-- Whitespace trimming at both ends, the semantics of
`String.prototype.trim`. -/
def trimStr (s : Str) : Str :=
  ((s.dropWhile Char.isWhitespace).reverse.dropWhile Char.isWhitespace).reverse

/-- Conversion of one data line of the import CSV into a parsed row
(the loop body of `parseCSV` in the import page): split on commas, trim each
value, require at least three columns and a non-empty address (column 0) and
city name (column 2); columns 3 and 4 collapse to absent when empty. -/
def parseRow (line : Str) : Option ParsedHome :=
  let values := (splitC ',' line).map trimStr
  if values.length < 3 then none
  else
    let home : ParsedHome :=
      { address := values.getD 0 []
        street_name := values.getD 1 []
        city_name := values.getD 2 []
        subdivision_name :=
          (if values.getD 3 [] = [] then none else some (values.getD 3 []))
        notes := (if values.getD 4 [] = [] then none else some (values.getD 4 [])) }
    if home.address ≠ [] ∧ home.city_name ≠ [] then some home else none

/-- Fallible CSV parser of the import page (`parseCSV`): drop blank lines,
error when nothing is left, discard the first remaining line as the header,
parse each following line, and error when no valid row was found. -/
def parseCSV (text : Str) : Except Str (List ParsedHome) :=
  let lines := (splitC '\n' text).filter lineKept
  if lines.length = 0 then .error "CSV file is empty".data
  else
    let homes := (lines.drop 1).filterMap parseRow
    if homes.length = 0 then
      .error "No valid homes found in CSV. Please check the format.".data
    else .ok homes

/-- Parser described by the claim wording: split on newline then comma, the
first line is discarded as a header, a row is kept exactly when it has at
least three columns and a non-empty address and city name, and all other
rows are silently dropped with no error surfaced. -/
def claimParseCSV (text : Str) : List ParsedHome :=
  ((splitC '\n' text).drop 1).filterMap parseRow

/-- Parser described by the amended claim: whitespace-only lines are removed
before the header is taken, and an error is surfaced when no line or no
valid row remains; otherwise rows are dropped silently. -/
def amendedParseCSV (text : Str) : Except Str (List ParsedHome) :=
  match (splitC '\n' text).filter lineKept with
  | [] => .error "CSV file is empty".data
  | _ :: rest =>
    match rest.filterMap parseRow with
    | [] => .error "No valid homes found in CSV. Please check the format.".data
    | r :: rs => .ok (r :: rs)

/-- Case-insensitive association map from city names to ids, built by
the import flow (`cityMap` in `importHomes`): later entries overwrite
earlier ones, lookup is by lower-cased name. -/
def cityMapInsert (m : List (Str × Str)) (k v : Str) : List (Str × Str) :=
  (m.filter (fun p => p.1 ≠ k)) ++ [(k, v)]

/-- Building the city map by iterating over the fetched cities. -/
def buildCityMap (cities : List City) : List (Str × Str) :=
  cities.foldl (fun m c => cityMapInsert m (toLowerStr c.name) c.id) []

/-- Lookup in an association map. -/
def mapLookup (m : List (Str × Str)) (k : Str) : Option Str :=
  (m.find? (fun p => p.1 = k)).map Prod.snd

/-- City-name resolution of the import flow:
`cityMap.get(home.city_name.toLowerCase())`. -/
def resolveCity (cities : List City) (cityName : Str) : Option Str :=
  mapLookup (buildCityMap cities) (toLowerStr cityName)

/-- Subdivision map of the import flow, keyed by
`` `${sub.city_id}:${sub.name.toLowerCase()}` ``. -/
def buildSubMap (subs : List Subdivision) : List (Str × Str) :=
  subs.foldl (fun m s =>
    cityMapInsert m (s.city_id ++ ':' :: toLowerStr s.name) s.id) []

/-- Subdivision resolution of one import row: only attempted when the row
names a subdivision, otherwise `null`. -/
def resolveSub (subs : List Subdivision) (cityId : Str) (row : ParsedHome) :
    Option Str :=
  match row.subdivision_name with
  | some s => mapLookup (buildSubMap subs) (cityId ++ ':' :: toLowerStr s)
  | none => none

/-- Record inserted into the `homes` table by a flow (the `homeData` object
literals of the import page and of `LogVisit`). -/
structure NewHome where
  address : Str
  street_name : Str
  city_id : Str
  subdivision_id : Option Str
  result : VisitResult
  contact_name : Option Str
  phone_number : Option Str
  follow_up_date : Option Str
  notes : Option Str
  canvasser_id : Option Str
  source : Source
  date_visited : Option Str
  latitude : Option Int
  longitude : Option Int
  location_pinned_at : Option Str
deriving DecidableEq

/-- The `homeData` object built for one import row (`importHomes` in
the import page, lines 138-148).  `user` is the authenticated user's id
and `today` stands for the current ISO day, the day the bulk
load runs. -/
def mkImportHome (cityId : Str) (subId : Option Str) (user : Option Str)
    (today : Str) (row : ParsedHome) : NewHome :=
  { address := row.address
    street_name := strOr row.street_name row.address
    city_id := cityId
    subdivision_id := subId
    result := .notHome
    contact_name := none
    phone_number := none
    follow_up_date := none
    notes := some (match row.notes with
      | some n => "[IMPORTED] ".data ++ n
      | none => "[IMPORTED] Prospective home to visit".data)
    canvasser_id := user
    source := .manual
    date_visited := some today
    latitude := none
    longitude := none
    location_pinned_at := none }

/-- State threaded through the sequential import loop: the `(address,
city_id)` pairs currently present in the `homes` table (the carrier of the
database's `UNIQUE(address, city_id)` constraint), the rows inserted so far,
and the two counters. -/
structure ImportState where
  keys : List (Str × Option Str)
  inserted : List NewHome
  success : Nat
  failed : Nat
deriving DecidableEq

/-- Whether inserting the record would violate the `UNIQUE(address,
city_id)` constraint of the `homes` table (PostgreSQL error code 23505). -/
def insertConflicts (keys : List (Str × Option Str)) (d : NewHome) : Bool :=
  keys.any (fun k => decide (k.1 = d.address ∧ k.2 = some d.city_id))

/-- Body of the per-row import loop (`importHomes` in the import page, lines
123-169): an unresolvable city or a unique-constraint failure counts the row
as failed and moves on; otherwise the row is inserted and counted as a
success. -/
def importStep (cities : List City) (subs : List Subdivision)
    (user : Option Str) (today : Str) (st : ImportState) (row : ParsedHome) :
    ImportState :=
  match resolveCity cities row.city_name with
  | none => { st with failed := st.failed + 1 }
  | some cityId =>
    let d := mkImportHome cityId (resolveSub subs cityId row) user today row
    if insertConflicts st.keys d then { st with failed := st.failed + 1 }
    else { st with
      keys := st.keys ++ [(d.address, some d.city_id)]
      inserted := st.inserted ++ [d]
      success := st.success + 1 }

/-- Whole import run over the parsed rows, starting from the homes already
in the table and zeroed counters. -/
def importHomes (cities : List City) (subs : List Subdivision)
    (user : Option Str) (today : Str) (initKeys : List (Str × Option Str))
    (rows : List ParsedHome) : ImportState :=
  rows.foldl (importStep cities subs user today)
    { keys := initKeys, inserted := [], success := 0, failed := 0 }

/-- Debounce delay of the duplicate check in `LogVisit`
(`setTimeout(checkDuplicate, 500)`). -/
def debounceDelayMs : Nat := 500

/-- Advisory warning text built from the prior visit found by the duplicate
check: the prior `date_visited`, followed by the prior result in parentheses
when present. -/
def duplicateWarningText (h : Home) : Str :=
  "This address was already logged on ".data ++ h.date_visited ++
  (match h.result with
   | some r => " (".data ++ resultStr r ++ ")".data
   | none => [])

/-- Duplicate check of `LogVisit` (`checkDuplicate`, part of the debounced
effect): with both address and city non-empty, the store is queried for a
home with exactly equal address and `city_id` (limit 1); a hit produces the
advisory warning, otherwise the warning is cleared. -/
def checkDuplicate (store : List Home) (address cityId : Str) : Option Str :=
  if address = [] ∨ cityId = [] then none
  else
    match store.find? (fun h =>
        decide (h.address = address ∧ h.city_id = some cityId)) with
    | some h => some (duplicateWarningText h)
    | none => none

/-- Validated data of the log-visit form (the zod schema `logVisitSchema`). -/
structure VisitForm where
  city_id : Str
  subdivision_id : Option Str
  street_name : Str
  address : Str
  result : VisitResult
  contact_name : Option Str
  phone_number : Option Str
  follow_up_date : Option Str
  notes : Option Str
deriving DecidableEq

/-- Pinned or geocoded coordinates. -/
structure Coord where
  lat : Int
  lng : Int
deriving DecidableEq

/-- The `homeData` object built by `LogVisit`'s `onSubmit`: form values with
empty optionals collapsed to null, the current user, `source: 'manual'`, and
the coordinates when available (`now` stands for `new Date().toISOString()`
used for `location_pinned_at`). -/
def mkVisitHome (data : VisitForm) (user : Option Str) (coords : Option Coord)
    (now : Str) : NewHome :=
  { address := data.address
    street_name := data.street_name
    city_id := data.city_id
    subdivision_id := orNullStr data.subdivision_id
    result := data.result
    contact_name := orNullStr data.contact_name
    phone_number := orNullStr data.phone_number
    follow_up_date := orNullStr data.follow_up_date
    notes := orNullStr data.notes
    canvasser_id := user
    source := .manual
    date_visited := none
    latitude := (coords.map Coord.lat)
    longitude := (coords.map Coord.lng)
    location_pinned_at := (coords.map (fun _ => now)) }

/-- Page state of `LogVisit` relevant to submission: the homes table and the
advisory duplicate warning currently displayed. -/
structure LogVisitPageState where
  homesDb : List Home
  duplicateWarning : Option Str
deriving DecidableEq

/-- Submission of the log-visit form (`onSubmit`): the insert succeeds with
the built record unless the table's unique constraint rejects it; the
displayed duplicate warning is not consulted. -/
def submitLogVisit (data : VisitForm) (user : Option Str)
    (coords : Option Coord) (now : Str) (st : LogVisitPageState) :
    Except Str NewHome :=
  let d := mkVisitHome data user coords now
  if st.homesDb.any (fun h =>
      decide (h.address = d.address ∧ h.city_id = some d.city_id)) then
    .error "23505".data
  else .ok d

/-- Visibility of the conditional contact sub-section
(`shouldShowContactFields` in `LogVisit`): the watched result equals
`'Scheduled Demo'` or `'Interested - Call Back'` (the watched value may
still be unset). -/
def shouldShowContactFields (selectedResult : Option VisitResult) : Bool :=
  selectedResult == some .scheduledDemo ||
  selectedResult == some .interestedCallBack

/-- Demonstration city table with one known city. -/
def demoCities : List City := [⟨"c1".data, "Pearland".data⟩]

/-- Demonstration parsed row (address and city only). -/
def demoRow (a c : String) : ParsedHome := ⟨a.data, [], c.data, none, none⟩

/-- Keys of the homes already in the table for the demonstration import: two
existing homes that two of the incoming rows duplicate. -/
def demoKeys : List (Str × Option Str) :=
  [("1 Alpha St".data, some "c1".data), ("2 Beta St".data, some "c1".data)]

/-- Ten demonstration import rows: rows 1 and 2 duplicate existing homes,
row 3 names an unknown city, rows 4-10 are fresh. -/
def demoRows : List ParsedHome :=
  [demoRow "1 Alpha St" "Pearland", demoRow "2 Beta St" "Pearland",
   demoRow "3 Gamma St" "Nowhere", demoRow "4 Delta St" "Pearland",
   demoRow "5 Epsilon St" "Pearland", demoRow "6 Zeta St" "Pearland",
   demoRow "7 Eta St" "Pearland", demoRow "8 Theta St" "Pearland",
   demoRow "9 Iota St" "Pearland", demoRow "10 Kappa St" "Pearland"]

/-- Demonstration home record for witnesses: a prior visit at
`1 Alpha St` in city `c1`. -/
def demoHome : Home :=
  { id := "h1".data
    city_id := some "c1".data
    subdivision_id := none
    street_name := "Alpha St".data
    address := "1 Alpha St".data
    result := some .notHome
    contact_name := some "Pat Doe".data
    phone_number := none
    follow_up_date := none
    notes := none
    canvasser_id := none
    date_visited := "2025-01-01".data
    source := .manual
    latitude := none
    longitude := none
    created_at := "2025-01-01T10:00:00Z".data
    cities := some ⟨"c1".data, "Pearland".data⟩
    subdivisions := none }

/-- Second demonstration home at the same address as `demoHome` but with a
different identity, used to exhibit sorting ties. -/
def demoHome2 : Home :=
  { demoHome with id := "h2".data, contact_name := none }

/-- Every string is a leading segment of itself extended on the right. -/
theorem leadsWith_append (n t : Str) : leadsWith n (n ++ t) = true := by
  induction n with
  | nil => rfl
  | cons a as ih => simp [leadsWith, ih]

theorem strHas_of_leadsWith {n h : Str} (hl : leadsWith n h = true) :
    strHas n h = true := by
  cases h with
  | nil => simpa [strHas] using hl
  | cons c t => simp [strHas, hl]

theorem strHas_append_left {n t : Str} (s : Str) (ht : strHas n t = true) :
    strHas n (s ++ t) = true := by
  induction s with
  | nil => simpa using ht
  | cons c cs ih => simp [strHas, ih]

/-- Every iteration of the import loop settles its row into exactly one of
the two counters. -/
theorem importStep_count (cities : List City) (subs : List Subdivision)
    (user : Option Str) (today : Str) (st : ImportState) (row : ParsedHome) :
    (importStep cities subs user today st row).success +
      (importStep cities subs user today st row).failed =
      st.success + st.failed + 1 := by
  unfold importStep
  cases resolveCity cities row.city_name with
  | none => simp; omega
  | some cid =>
    simp only []
    split
    · simp; omega
    · simp [Nat.add_right_comm]

/-- Over any tail of the import, the counters grow by exactly the number of
rows processed. -/
theorem importFold_count (cities : List City) (subs : List Subdivision)
    (user : Option Str) (today : Str) (rows : List ParsedHome) :
    ∀ st : ImportState,
      (rows.foldl (importStep cities subs user today) st).success +
        (rows.foldl (importStep cities subs user today) st).failed =
        st.success + st.failed + rows.length := by
  induction rows with
  | nil => intro st; simp
  | cons r rs ih =>
    intro st
    have h1 := importStep_count cities subs user today st r
    simp only [List.foldl_cons, List.length_cons]
    rw [ih (importStep cities subs user today st r), h1]
    omega

/-- C2: in the CSV import, a row whose city name resolves to no known city
(case-insensitively) is never inserted and counted as failed; a row whose
insertion hits the unique-constraint violation is counted as failed while
the loop proceeds to the next row; the reported counters always sum to the
number of parsed rows; and the concrete ten-row import with two duplicates
and one unresolvable city reports success 7 and failed 3. -/
theorem import_reconciliation (cities : List City) (subs : List Subdivision)
    (user : Option Str) (today : Str) (st : ImportState)
    (rowA rowB : ParsedHome) (cid : Str) (rest : List ParsedHome)
    (initKeys : List (Str × Option Str)) (rows : List ParsedHome)
    (hA : resolveCity cities rowA.city_name = none)
    (hB : resolveCity cities rowB.city_name = some cid)
    (hDup : insertConflicts st.keys
      (mkImportHome cid (resolveSub subs cid rowB) user today rowB) = true) :
    (importStep cities subs user today st rowA =
      { st with failed := st.failed + 1 }) ∧
    (importStep cities subs user today st rowB =
      { st with failed := st.failed + 1 }) ∧
    ((rowB :: rest).foldl (importStep cities subs user today) st =
      rest.foldl (importStep cities subs user today)
        { st with failed := st.failed + 1 }) ∧
    ((importHomes cities subs user today initKeys rows).success +
      (importHomes cities subs user today initKeys rows).failed =
      rows.length) ∧
    ((importHomes demoCities [] none "2025-06-01".data demoKeys
        demoRows).success = 7 ∧
     (importHomes demoCities [] none "2025-06-01".data demoKeys
        demoRows).failed = 3) := by
  have hstepA : importStep cities subs user today st rowA =
      { st with failed := st.failed + 1 } := by
    unfold importStep; rw [hA]
  have hstepB : importStep cities subs user today st rowB =
      { st with failed := st.failed + 1 } := by
    unfold importStep; rw [hB]; simp only [hDup, if_pos]
  refine ⟨hstepA, hstepB, ?_, ?_, by decide⟩
  · simp only [List.foldl_cons, hstepB]
  · simpa using importFold_count cities subs user today rows
      { keys := initKeys, inserted := [], success := 0, failed := 0 }

/-- Witness for `import_reconciliation` at a concrete instance: the city
table of the demonstration import, a row naming the unknown city `Nowhere`,
and a row duplicating an existing key. -/
theorem import_reconciliation_witness :
    (importStep demoCities [] none "2025-06-01".data
      { keys := demoKeys, inserted := [], success := 0, failed := 0 }
      (demoRow "3 Gamma St" "Nowhere") =
      { keys := demoKeys, inserted := [], success := 0, failed := 1 }) ∧
    (importStep demoCities [] none "2025-06-01".data
      { keys := demoKeys, inserted := [], success := 0, failed := 0 }
      (demoRow "1 Alpha St" "Pearland") =
      { keys := demoKeys, inserted := [], success := 0, failed := 1 }) ∧
    (([demoRow "1 Alpha St" "Pearland"].foldl
        (importStep demoCities [] none "2025-06-01".data)
        { keys := demoKeys, inserted := [], success := 0, failed := 0 }) =
      ([] : List ParsedHome).foldl
        (importStep demoCities [] none "2025-06-01".data)
        { keys := demoKeys, inserted := [], success := 0, failed := 1 }) ∧
    ((importHomes demoCities [] none "2025-06-01".data demoKeys
        demoRows).success +
      (importHomes demoCities [] none "2025-06-01".data demoKeys
        demoRows).failed = demoRows.length) ∧
    ((importHomes demoCities [] none "2025-06-01".data demoKeys
        demoRows).success = 7 ∧
     (importHomes demoCities [] none "2025-06-01".data demoKeys
        demoRows).failed = 3) := by
  exact import_reconciliation demoCities [] none "2025-06-01".data
    { keys := demoKeys, inserted := [], success := 0, failed := 0 }
    (demoRow "3 Gamma St" "Nowhere") (demoRow "1 Alpha St" "Pearland")
    "c1".data [] demoKeys demoRows (by decide) (by decide) (by decide)

/-- C10: every home inserted by the CSV import carries result `Not Home`,
the import day as `date_visited`, the parsed street name (falling back to
the row's address when blank), and notes equal to `[IMPORTED] ` followed by
the parsed notes or the fixed placeholder. -/
theorem import_inserted_defaults (cities : List City)
    (subs : List Subdivision) (user : Option Str) (today : Str)
    (st : ImportState) (row : ParsedHome) (cid : Str)
    (hc : resolveCity cities row.city_name = some cid)
    (hnc : insertConflicts st.keys
      (mkImportHome cid (resolveSub subs cid row) user today row) = false) :
    (importStep cities subs user today st row).inserted =
      st.inserted ++ [mkImportHome cid (resolveSub subs cid row) user today row] ∧
    (mkImportHome cid (resolveSub subs cid row) user today row).result =
      VisitResult.notHome ∧
    (mkImportHome cid (resolveSub subs cid row) user today row).date_visited =
      some today ∧
    (row.street_name ≠ [] →
      (mkImportHome cid (resolveSub subs cid row) user today row).street_name =
        row.street_name) ∧
    (row.street_name = [] →
      (mkImportHome cid (resolveSub subs cid row) user today row).street_name =
        row.address) ∧
    (mkImportHome cid (resolveSub subs cid row) user today row).notes =
      some ("[IMPORTED] ".data ++
        row.notes.getD "Prospective home to visit".data) := by
  refine ⟨?_, rfl, rfl, ?_, ?_, ?_⟩
  · unfold importStep
    rw [hc]
    simp only [hnc, Bool.false_eq_true, if_false]
  · intro h; simp [mkImportHome, strOr, h]
  · intro h; simp [mkImportHome, strOr, h]
  · cases hn : row.notes with
    | none => simp only [mkImportHome, hn, Option.getD_none]; decide
    | some n => simp [mkImportHome, hn]

/-- Witness for `import_inserted_defaults`: a fresh row with a blank street
name and no notes, imported into an empty table. -/
theorem import_inserted_defaults_witness :
    (importStep demoCities [] none "2025-06-01".data
        { keys := [], inserted := [], success := 0, failed := 0 }
        (demoRow "4 Delta St" "Pearland")).inserted =
      [] ++ [mkImportHome "c1".data
        (resolveSub [] "c1".data (demoRow "4 Delta St" "Pearland")) none
        "2025-06-01".data (demoRow "4 Delta St" "Pearland")] ∧
    (mkImportHome "c1".data
      (resolveSub [] "c1".data (demoRow "4 Delta St" "Pearland")) none
      "2025-06-01".data (demoRow "4 Delta St" "Pearland")).result =
      VisitResult.notHome ∧
    (mkImportHome "c1".data
      (resolveSub [] "c1".data (demoRow "4 Delta St" "Pearland")) none
      "2025-06-01".data (demoRow "4 Delta St" "Pearland")).date_visited =
      some "2025-06-01".data ∧
    ((demoRow "4 Delta St" "Pearland").street_name ≠ [] →
      (mkImportHome "c1".data
        (resolveSub [] "c1".data (demoRow "4 Delta St" "Pearland")) none
        "2025-06-01".data (demoRow "4 Delta St" "Pearland")).street_name =
        (demoRow "4 Delta St" "Pearland").street_name) ∧
    ((demoRow "4 Delta St" "Pearland").street_name = [] →
      (mkImportHome "c1".data
        (resolveSub [] "c1".data (demoRow "4 Delta St" "Pearland")) none
        "2025-06-01".data (demoRow "4 Delta St" "Pearland")).street_name =
        (demoRow "4 Delta St" "Pearland").address) ∧
    (mkImportHome "c1".data
      (resolveSub [] "c1".data (demoRow "4 Delta St" "Pearland")) none
      "2025-06-01".data (demoRow "4 Delta St" "Pearland")).notes =
      some ("[IMPORTED] ".data ++
        ((demoRow "4 Delta St" "Pearland").notes.getD
          "Prospective home to visit".data)) := by
  exact import_inserted_defaults demoCities [] none "2025-06-01".data
    { keys := [], inserted := [], success := 0, failed := 0 }
    (demoRow "4 Delta St" "Pearland") "c1".data (by decide) (by decide)

/-- C8 counterexample: a concrete CSV bulk-import run inserts a home whose
provenance tag is `'manual'`, not the tag reserved for the external
provider (`'corelogic'`), refuting the claim that bulk-imported homes are
tagged as imported rather than manually entered. -/
theorem import_source_tag_cex :
    (importHomes demoCities [] none "2025-06-01".data []
        [demoRow "4 Delta St" "Pearland"]).inserted.map NewHome.source =
      [Source.manual] ∧ Source.manual ≠ Source.corelogic := by
  decide

/-- C8 amended: every home record carries a `source` tag whose two values
distinguish manual entry from external-provider (`corelogic`) import, but
every home created by the CSV bulk-import flow is tagged `'manual'`; the
provenance of the bulk load is recorded through the `[IMPORTED] ` notes
marker instead. -/
theorem import_source_tag (cities : List City) (subs : List Subdivision)
    (user : Option Str) (today : Str) (initKeys : List (Str × Option Str))
    (rows : List ParsedHome) (d : NewHome)
    (hd : d ∈ (importHomes cities subs user today initKeys rows).inserted) :
    (∀ s : Source, s = Source.manual ∨ s = Source.corelogic) ∧
    d.source = Source.manual ∧
    leadsWith "[IMPORTED] ".data (d.notes.getD []) = true := by
  refine ⟨fun s => by cases s <;> simp, ?_⟩
  let P : NewHome → Prop := fun d =>
    d.source = Source.manual ∧
      leadsWith "[IMPORTED] ".data (d.notes.getD []) = true
  suffices h : ∀ (rs : List ParsedHome) (st : ImportState),
      (∀ e ∈ st.inserted, P e) →
      ∀ e ∈ (rs.foldl (importStep cities subs user today) st).inserted, P e by
    exact h rows { keys := initKeys, inserted := [], success := 0, failed := 0 }
      (by simp) d hd
  intro rs
  induction rs with
  | nil => intro st hst; simpa using hst
  | cons r rest ih =>
    intro st hst
    refine ih (importStep cities subs user today st r) ?_
    intro e he
    unfold importStep at he
    cases hr : resolveCity cities r.city_name with
    | none => rw [hr] at he; exact hst e he
    | some cid =>
      rw [hr] at he
      simp only [] at he
      by_cases hc : insertConflicts st.keys
          (mkImportHome cid (resolveSub subs cid r) user today r) = true
      · rw [if_pos hc] at he; exact hst e he
      · rw [if_neg hc] at he
        simp only [List.mem_append, List.mem_singleton] at he
        rcases he with he | he
        · exact hst e he
        · subst he
          constructor
          · rfl
          · show leadsWith "[IMPORTED] ".data
              ((mkImportHome cid (resolveSub subs cid r) user today r).notes.getD []) = true
            cases hn : r.notes with
            | none => simp [mkImportHome, hn]; decide
            | some n =>
              simp only [mkImportHome, hn, Option.getD_some]
              exact leadsWith_append "[IMPORTED] ".data n

/-- Witness for `import_source_tag`: the home inserted by the concrete
one-row import. -/
theorem import_source_tag_witness :
    (∀ s : Source, s = Source.manual ∨ s = Source.corelogic) ∧
    (mkImportHome "c1".data none none "2025-06-01".data
      (demoRow "4 Delta St" "Pearland")).source = Source.manual ∧
    leadsWith "[IMPORTED] ".data
      ((mkImportHome "c1".data none none "2025-06-01".data
        (demoRow "4 Delta St" "Pearland")).notes.getD []) = true := by
  exact import_source_tag demoCities [] none "2025-06-01".data []
    [demoRow "4 Delta St" "Pearland"]
    (mkImportHome "c1".data none none "2025-06-01".data
      (demoRow "4 Delta St" "Pearland")) (by decide)

/-- C3: the duplicate check of the log-visit form is debounced by the fixed
500ms delay; when the (address, city) pair is non-empty and the store holds
a home with exactly that address and city id, the check surfaces a warning
containing that prior visit's `date_visited` (and its result when present);
and submission ignores the displayed warning entirely, so it is never
blocked by it. -/
theorem duplicate_check_advisory (store : List Home) (address cityId : Str)
    (h : Home) (data : VisitForm) (user : Option Str) (coords : Option Coord)
    (now : Str)
    (hmem : h ∈ store) (haddr : h.address = address)
    (hcity : h.city_id = some cityId) (hne : address ≠ [])
    (hcne : cityId ≠ []) :
    debounceDelayMs = 500 ∧
    (∃ h0 ∈ store, h0.address = address ∧ h0.city_id = some cityId ∧
      ∃ w, checkDuplicate store address cityId = some w ∧
        strHas h0.date_visited w = true ∧
        ∀ r, h0.result = some r → strHas (resultStr r) w = true) ∧
    (∀ st1 st2 : LogVisitPageState, st1.homesDb = st2.homesDb →
      submitLogVisit data user coords now st1 =
        submitLogVisit data user coords now st2) := by
  refine ⟨rfl, ?_, ?_⟩
  · have hcond : ¬ (address = [] ∨ cityId = []) := by
      rintro (hx | hx)
      · exact hne hx
      · exact hcne hx
    cases hfind : store.find? (fun h0 =>
        decide (h0.address = address ∧ h0.city_id = some cityId)) with
    | none =>
      exfalso
      have := List.find?_eq_none.mp hfind h hmem
      simp [haddr, hcity] at this
    | some h0 =>
      have hm := List.mem_of_find?_eq_some hfind
      have hp := List.find?_some hfind
      simp only [decide_eq_true_eq] at hp
      refine ⟨h0, hm, hp.1, hp.2, duplicateWarningText h0, ?_, ?_, ?_⟩
      · unfold checkDuplicate
        rw [if_neg hcond, hfind]
      · unfold duplicateWarningText
        rw [List.append_assoc]
        exact strHas_append_left _
          (strHas_of_leadsWith (leadsWith_append h0.date_visited _))
      · intro r hr
        unfold duplicateWarningText
        rw [hr]
        simp only [List.append_assoc]
        refine strHas_append_left _ (strHas_append_left _ ?_)
        refine strHas_append_left " (".data ?_
        exact strHas_of_leadsWith (leadsWith_append (resultStr r) _)
  · intro st1 st2 hdb
    unfold submitLogVisit
    rw [hdb]

/-- Witness for `duplicate_check_advisory`: a one-home store matching the
queried pair. -/
theorem duplicate_check_advisory_witness :
    debounceDelayMs = 500 ∧
    (∃ h0 ∈ [demoHome], h0.address = "1 Alpha St".data ∧
      h0.city_id = some "c1".data ∧
      ∃ w, checkDuplicate [demoHome] "1 Alpha St".data "c1".data = some w ∧
        strHas h0.date_visited w = true ∧
        ∀ r, h0.result = some r → strHas (resultStr r) w = true) ∧
    (∀ st1 st2 : LogVisitPageState, st1.homesDb = st2.homesDb →
      submitLogVisit
        { city_id := "c1".data, subdivision_id := none,
          street_name := "Alpha St".data, address := "9 Alpha St".data,
          result := .scheduledDemo, contact_name := none,
          phone_number := none, follow_up_date := none, notes := none }
        none none "2025-06-01T00:00:00Z".data st1 =
      submitLogVisit
        { city_id := "c1".data, subdivision_id := none,
          street_name := "Alpha St".data, address := "9 Alpha St".data,
          result := .scheduledDemo, contact_name := none,
          phone_number := none, follow_up_date := none, notes := none }
        none none "2025-06-01T00:00:00Z".data st2) := by
  exact duplicate_check_advisory [demoHome] "1 Alpha St".data "c1".data
    demoHome
    { city_id := "c1".data, subdivision_id := none,
      street_name := "Alpha St".data, address := "9 Alpha St".data,
      result := .scheduledDemo, contact_name := none, phone_number := none,
      follow_up_date := none, notes := none }
    none none "2025-06-01T00:00:00Z".data
    (by decide) (by decide) (by decide) (by decide) (by decide)

/-- C9: the conditional contact sub-section is visible exactly when the
selected result is `Scheduled Demo` or `Interested - Call Back`; `Not Home`
hides it; and the submitted payload's contact name, phone number, and
follow-up date are unaffected by the chosen result, so hiding the section
does not remove previously entered contact values from the payload. -/
theorem contact_section_visibility (r : Option VisitResult)
    (rr : VisitResult) (data : VisitForm) (user : Option Str)
    (coords : Option Coord) (now : Str) :
    (shouldShowContactFields r = true ↔
      (r = some VisitResult.scheduledDemo ∨
       r = some VisitResult.interestedCallBack)) ∧
    shouldShowContactFields (some VisitResult.notHome) = false ∧
    ((mkVisitHome { data with result := rr } user coords now).contact_name =
      (mkVisitHome data user coords now).contact_name ∧
     (mkVisitHome { data with result := rr } user coords now).phone_number =
      (mkVisitHome data user coords now).phone_number ∧
     (mkVisitHome { data with result := rr } user coords now).follow_up_date =
      (mkVisitHome data user coords now).follow_up_date) := by
  refine ⟨?_, rfl, rfl, rfl, rfl⟩
  cases r with
  | none => simp [shouldShowContactFields]
  | some v => cases v <;> simp [shouldShowContactFields]

/-- Membership in a conditionally filtered list gives membership in the
source together with the predicate whenever the guard is active. -/
theorem mem_filterWhen {α : Type} {c : Prop} [Decidable c] {p : α → Bool}
    {l : List α} {x : α} (hx : x ∈ filterWhen c p l) :
    x ∈ l ∧ (c → p x = true) := by
  unfold filterWhen at hx
  split at hx
  · exact ⟨(List.mem_filter.mp hx).1, fun _ => (List.mem_filter.mp hx).2⟩
  · next hc => exact ⟨hx, fun hcc => absurd hcc hc⟩

/-- Stable insertion permutes the element onto the list. -/
theorem insertLe_perm {α : Type} (le : α → α → Bool) (x : α) (l : List α) :
    (insertLe le x l).Perm (x :: l) := by
  induction l with
  | nil => exact List.Perm.refl _
  | cons y ys ih =>
    unfold insertLe
    split
    · exact List.Perm.refl _
    · exact (ih.cons y).trans (List.Perm.swap x y ys)

/-- The stable sort permutes its input. -/
theorem isort_perm {α : Type} (le : α → α → Bool) (l : List α) :
    (isort le l).Perm l := by
  induction l with
  | nil => exact List.Perm.refl _
  | cons x xs ih =>
    exact (insertLe_perm le x (isort le xs)).trans (ih.cons x)

/-- Sorting keeps exactly the elements of the input list. -/
theorem mem_isort {α : Type} {le : α → α → Bool} {l : List α} {x : α} :
    x ∈ isort le l ↔ x ∈ l :=
  (isort_perm le l).mem_iff

/-- Every sort key of `ViewHomes` merely permutes the list, so membership is
preserved. -/
theorem mem_sortHomes {dateVal : Str → Int} {sortBy : Str} {l : List Home}
    {x : Home} (hx : x ∈ sortHomes dateVal sortBy l) : x ∈ l := by
  unfold sortHomes at hx
  split_ifs at hx <;> first
  | exact mem_isort.mp hx
  | exact hx

/-- C1: every element of the `ViewHomes` output is an element of the source
list and satisfies every active filter predicate: exact city name, exact
result, case-insensitive substring over address, street and contact name,
and the inclusive date-visited bounds. -/
theorem viewHomes_filter_sound (dateVal : Str → Int) (f : Filters)
    (sortBy : Str) (homes : List Home) (x : Home)
    (hx : x ∈ viewHomesList dateVal f sortBy homes) :
    x ∈ homes ∧
    (f.cityFilter ≠ [] → x.cities.map City.name = some f.cityFilter) ∧
    (f.resultFilter ≠ [] → x.result.map resultStr = some f.resultFilter) ∧
    (f.searchQuery ≠ [] →
      (strHas (toLowerStr f.searchQuery) (toLowerStr x.address) = true ∨
       strHas (toLowerStr f.searchQuery) (toLowerStr x.street_name) = true ∨
       ∃ cn, x.contact_name = some cn ∧
         strHas (toLowerStr f.searchQuery) (toLowerStr cn) = true)) ∧
    (f.startDate ≠ [] → jsLeStr f.startDate x.date_visited = true) ∧
    (f.endDate ≠ [] → jsLeStr x.date_visited f.endDate = true) := by
  have hx5 : x ∈ applyFilters f homes := mem_sortHomes hx
  unfold applyFilters at hx5
  obtain ⟨hx4, hEnd⟩ := mem_filterWhen hx5
  obtain ⟨hx3, hStart⟩ := mem_filterWhen hx4
  obtain ⟨hx2, hSearch⟩ := mem_filterWhen hx3
  obtain ⟨hx1, hResult⟩ := mem_filterWhen hx2
  obtain ⟨hx0, hCity⟩ := mem_filterWhen hx1
  refine ⟨hx0, ?_, ?_, ?_, hStart, hEnd⟩
  · intro hc
    exact of_decide_eq_true (hCity hc)
  · intro hc
    exact of_decide_eq_true (hResult hc)
  · intro hc
    have hs := hSearch hc
    unfold searchPred at hs
    simp only [Bool.or_eq_true] at hs
    rcases hs with (h1 | h2) | h3
    · exact Or.inl h1
    · exact Or.inr (Or.inl h2)
    · right; right
      cases hcn : x.contact_name with
      | none => rw [hcn] at h3; exact absurd h3 (by simp)
      | some cn => rw [hcn] at h3; exact ⟨cn, rfl, h3⟩

/-- Witness for `viewHomes_filter_sound`: all five filters active on a
one-home list that matches each of them. -/
theorem viewHomes_filter_sound_witness :
    demoHome ∈ [demoHome] ∧
    ("Pearland".data ≠ ([] : Str) →
      demoHome.cities.map City.name = some "Pearland".data) ∧
    ("Not Home".data ≠ ([] : Str) →
      demoHome.result.map resultStr = some "Not Home".data) ∧
    ("alpha".data ≠ ([] : Str) →
      (strHas (toLowerStr "alpha".data) (toLowerStr demoHome.address) = true ∨
       strHas (toLowerStr "alpha".data) (toLowerStr demoHome.street_name) = true ∨
       ∃ cn, demoHome.contact_name = some cn ∧
         strHas (toLowerStr "alpha".data) (toLowerStr cn) = true)) ∧
    ("2024-12-31".data ≠ ([] : Str) →
      jsLeStr "2024-12-31".data demoHome.date_visited = true) ∧
    ("2025-12-31".data ≠ ([] : Str) →
      jsLeStr demoHome.date_visited "2025-12-31".data = true) := by
  exact viewHomes_filter_sound (fun _ => 0)
    { cityFilter := "Pearland".data, resultFilter := "Not Home".data,
      searchQuery := "alpha".data, startDate := "2024-12-31".data,
      endDate := "2025-12-31".data }
    "address_asc".data [demoHome] demoHome (by decide)


/-- Splitting never returns an empty list of pieces. -/
theorem splitC_ne_nil (c : Char) (s : Str) : splitC c s ≠ [] := by
  cases s with
  | nil => simp [splitC]
  | cons x xs =>
    rw [splitC.eq_def]
    cases hs : splitC c xs with
    | nil => simp [hs]
    | cons r rs => simp only [hs]; split <;> simp

/-- Unfolding of the split at a cons cell, phrased through the split of the
tail. -/
theorem splitC_cons_eq (c x : Char) (xs : Str) (r : Str) (rs : List Str)
    (hs : splitC c xs = r :: rs) :
    splitC c (x :: xs) =
      if x == c then [] :: r :: rs else (x :: r) :: rs := by
  rw [splitC.eq_def]
  simp only [hs]

/-- Splitting a string that does not contain the separator returns the whole
string as the only piece. -/
theorem splitC_no_sep {c : Char} {s : Str} (h : c ∉ s) : splitC c s = [s] := by
  induction s with
  | nil => rfl
  | cons x xs ih =>
    have hx : ¬ (x == c) = true := by
      simp only [beq_iff_eq]
      intro he
      exact h (he ▸ List.mem_cons_self x xs)
    have hxs : c ∉ xs := fun hm => h (List.mem_cons_of_mem x hm)
    rw [splitC_cons_eq c x xs xs [] (ih hxs), if_neg hx]

/-- Splitting past a separator-free first piece peels it off. -/
theorem splitC_cons_sep {c : Char} {a : Str} (b : Str) (h : c ∉ a) :
    splitC c (a ++ c :: b) = a :: splitC c b := by
  induction a with
  | nil =>
    cases hs : splitC c b with
    | nil => exact absurd hs (splitC_ne_nil c b)
    | cons r rs =>
      simp only [List.nil_append]
      rw [splitC_cons_eq c c b r rs hs, if_pos (by simp)]
  | cons x xs ih =>
    have hx : ¬ (x == c) = true := by
      simp only [beq_iff_eq]
      intro he
      exact h (he ▸ List.mem_cons_self x xs)
    have hxs : c ∉ xs := fun hm => h (List.mem_cons_of_mem x hm)
    have htl := ih hxs
    cases hs : splitC c b with
    | nil => exact absurd hs (splitC_ne_nil c b)
    | cons r rs =>
      rw [hs] at htl
      simp only [List.cons_append]
      rw [splitC_cons_eq c x (xs ++ c :: b) xs (r :: rs) htl, if_neg hx]

/-- Splitting is a left inverse of joining for non-empty piece lists that do
not contain the separator. -/
theorem splitC_intercalateC {c : Char} :
    ∀ L : List Str, L ≠ [] → (∀ s ∈ L, c ∉ s) →
      splitC c (intercalateC c L) = L := by
  intro L
  induction L with
  | nil => intro h; exact absurd rfl h
  | cons s rest ih =>
    intro _ hmem
    cases rest with
    | nil =>
      simp only [intercalateC]
      exact splitC_no_sep (hmem s (List.mem_cons_self s []))
    | cons t rs =>
      have hs : c ∉ s := hmem s (List.mem_cons_self s (t :: rs))
      have hrest : ∀ u ∈ t :: rs, c ∉ u := fun u hu =>
        hmem u (List.mem_cons_of_mem s hu)
      simp only [intercalateC]
      rw [splitC_cons_sep (intercalateC c (t :: rs)) hs,
        ih (by simp) hrest]

/-- A character distinct from the separator and absent from every piece is
absent from the join. -/
theorem not_mem_intercalateC {c d : Char} (hcd : c ≠ d) :
    ∀ L : List Str, (∀ s ∈ L, c ∉ s) → c ∉ intercalateC d L := by
  intro L
  induction L with
  | nil => intro _; simp [intercalateC]
  | cons s rest ih =>
    intro hmem
    cases rest with
    | nil =>
      simpa [intercalateC] using hmem s (List.mem_cons_self s [])
    | cons t rs =>
      have hs : c ∉ s := hmem s (List.mem_cons_self s (t :: rs))
      have hrest := ih (fun u hu => hmem u (List.mem_cons_of_mem s hu))
      simp only [intercalateC, List.mem_append, List.mem_cons]
      rintro (hc | hc | hc)
      · exact hs hc
      · exact hcd hc
      · exact hrest hc

/-- A field without separator characters contains no comma, double quote, or
newline. -/
theorem hasSepChar_false {f : Str} (h : hasSepChar f = false) :
    ',' ∉ f ∧ '"' ∉ f ∧ '\n' ∉ f := by
  unfold hasSepChar at h
  rw [List.any_eq_false] at h
  exact ⟨fun hm => h _ hm (by decide), fun hm => h _ hm (by decide),
    fun hm => h _ hm (by decide)⟩

/-- A separator-free field passes through the CSV quoting unchanged. -/
theorem escapeCSVField_eq_self {f : Str} (h : hasSepChar f = false) :
    escapeCSVField f = f := by
  unfold escapeCSVField
  rw [h]
  simp

/-- The recursive quote doubling of the export agrees with its declarative
statement. -/
theorem doubleQuotes_eq_doubledSpec (f : Str) :
    doubleQuotes f = doubledSpec f := by
  induction f with
  | nil => rfl
  | cons c rest ih =>
    simp only [doubleQuotes, doubledSpec, List.map_cons, List.flatten] at ih ⊢
    by_cases hc : (c == '"') = true
    · have hc2 : c = '"' := by simpa using hc
      rw [if_pos hc, if_pos hc2, ih]
      rfl
    · have hc2 : ¬ c = '"' := by simpa using hc
      rw [if_neg hc, if_neg hc2, ih]
      rfl

/-- C7: in the CSV export, a field containing no comma, double quote, or
newline is emitted verbatim; a field containing one of them is emitted
wrapped in double quotes with every embedded double quote doubled; and the
first line of the produced text is the header row. -/
theorem csv_escape_and_header (f g : Str) (fmt : Str → Str)
    (homes : List Home) (content : Str)
    (hf : hasSepChar f = false) (hg : hasSepChar g = true)
    (hc : exportToCSV fmt homes = some content) :
    escapeCSVField f = f ∧
    escapeCSVField g = '"' :: (doubledSpec g ++ ['"']) ∧
    (splitC '\n' content).head? = some (intercalateC ',' headersCSV) := by
  refine ⟨escapeCSVField_eq_self hf, ?_, ?_⟩
  · unfold escapeCSVField
    rw [hg, doubleQuotes_eq_doubledSpec]
    simp
  · unfold exportToCSV at hc
    cases homes with
    | nil => simp at hc
    | cons h hs =>
      rw [if_neg (by simp)] at hc
      have hcontent := Option.some_injective _ hc
      have hhdr : headersCSV.map escapeCSVField = headersCSV := by decide
      rw [hhdr] at hcontent
      have hnl : '\n' ∉ intercalateC ',' headersCSV := by decide
      rw [← hcontent]
      simp only [List.map_cons]
      rw [show intercalateC '\n' (intercalateC ',' headersCSV ::
          (fun h => intercalateC ',' ((exportRow fmt h).map escapeCSVField)) h ::
          hs.map (fun h => intercalateC ','
            ((exportRow fmt h).map escapeCSVField))) =
        intercalateC ',' headersCSV ++ '\n' ::
          intercalateC '\n'
            ((fun h => intercalateC ',' ((exportRow fmt h).map escapeCSVField)) h ::
             hs.map (fun h => intercalateC ','
               ((exportRow fmt h).map escapeCSVField))) from rfl]
      rw [splitC_cons_sep _ hnl]
      rfl

/-- Witness for `csv_escape_and_header`: a plain field, a field containing a
double quote, and the concrete one-home export. -/
theorem csv_escape_and_header_witness :
    escapeCSVField "abc".data = "abc".data ∧
    escapeCSVField "a\"b".data =
      '"' :: (doubledSpec "a\"b".data ++ ['"']) ∧
    (splitC '\n' ((exportToCSV (fun s => s) [demoHome]).getD [])).head? =
      some (intercalateC ',' headersCSV) := by
  exact csv_escape_and_header "abc".data "a\"b".data (fun s => s) [demoHome]
    ((exportToCSV (fun s => s) [demoHome]).getD [])
    (by decide) (by decide) rfl

/-- C4: exporting a non-empty list of homes whose exported field values
contain no embedded separators and re-parsing the text with the same column
order (split on newline then comma, first line discarded as header) recovers
the original field values of every exported row. -/
theorem csv_round_trip (fmt : Str → Str) (homes : List Home)
    (hne : homes ≠ [])
    (hsep : ∀ h ∈ homes, ∀ fl ∈ exportRow fmt h, hasSepChar fl = false) :
    ∃ content, exportToCSV fmt homes = some content ∧
      reparseCSV content = homes.map (exportRow fmt) := by
  have hrow : ∀ h ∈ homes,
      (exportRow fmt h).map escapeCSVField = exportRow fmt h := by
    intro h hh
    have : ∀ fl ∈ exportRow fmt h, escapeCSVField fl = fl :=
      fun fl hfl => escapeCSVField_eq_self (hsep h hh fl hfl)
    calc (exportRow fmt h).map escapeCSVField
        = (exportRow fmt h).map id := List.map_congr_left this
      _ = exportRow fmt h := List.map_id _
  have hlinenl : ∀ h ∈ homes,
      '\n' ∉ intercalateC ',' (exportRow fmt h) := by
    intro h hh
    refine not_mem_intercalateC (by decide) _ ?_
    intro fl hfl
    exact (hasSepChar_false (hsep h hh fl hfl)).2.2
  have hhdr : headersCSV.map escapeCSVField = headersCSV := by decide
  have hhdrnl : '\n' ∉ intercalateC ',' headersCSV := by decide
  refine ⟨intercalateC '\n' (intercalateC ',' (headersCSV.map escapeCSVField) ::
      homes.map (fun h => intercalateC ','
        ((exportRow fmt h).map escapeCSVField))), ?_, ?_⟩
  · unfold exportToCSV
    rw [if_neg hne]
  · unfold reparseCSV
    rw [hhdr]
    have hmapline : homes.map
        (fun h => intercalateC ',' ((exportRow fmt h).map escapeCSVField)) =
        homes.map (fun h => intercalateC ',' (exportRow fmt h)) := by
      refine List.map_congr_left ?_
      intro h hh
      rw [hrow h hh]
    rw [hmapline]
    have hsplit : splitC '\n' (intercalateC '\n'
        (intercalateC ',' headersCSV ::
          homes.map (fun h => intercalateC ',' (exportRow fmt h)))) =
        intercalateC ',' headersCSV ::
          homes.map (fun h => intercalateC ',' (exportRow fmt h)) := by
      refine splitC_intercalateC _ (by simp) ?_
      intro s hsmem
      rcases List.mem_cons.mp hsmem with hshdr | hsrow
      · exact hshdr ▸ hhdrnl
      · obtain ⟨h, hh, rfl⟩ := List.mem_map.mp hsrow
        exact hlinenl h hh
    rw [hsplit]
    simp only [List.drop_succ_cons, List.drop_zero, List.map_map]
    refine List.map_congr_left ?_
    intro h hh
    have hfieldscomma : ∀ fl ∈ exportRow fmt h, ',' ∉ fl :=
      fun fl hfl => (hasSepChar_false (hsep h hh fl hfl)).1
    exact splitC_intercalateC _ (by simp [exportRow]) hfieldscomma

/-- Witness for `csv_round_trip`: the concrete one-home list whose exported
fields are separator-free. -/
theorem csv_round_trip_witness :
    ∃ content, exportToCSV (fun s => s) [demoHome] = some content ∧
      reparseCSV content = [demoHome].map (exportRow (fun s => s)) := by
  exact csv_round_trip (fun s => s) [demoHome] (by decide) (by decide)

/-- C6 counterexample: the import parser does not discard the literal first
line as the header — it removes whitespace-only lines first — and it is not
error-free when every row is dropped.  On `"\nx,y,z\na,b,c"` it discards
`x,y,z` as the header and returns one row, while the claimed parser returns
two; and on `"h\nx,y"` it surfaces an error instead of an empty result. -/
theorem csv_parser_cex :
    ((parseCSV "\nx,y,z\na,b,c".data).toOption ≠
      some (claimParseCSV "\nx,y,z\na,b,c".data)) ∧
    (∃ msg, parseCSV "h\nx,y".data = Except.error msg) := by
  constructor
  · decide
  · exact ⟨_, rfl⟩

/-- C6 amended: the parser splits on newline, removes whitespace-only lines,
then discards the first remaining line as a header; each further line is
split on commas with trimmed values and kept exactly when it has at least
three columns and a non-empty address (column 0) and city name (column 2);
dropped rows produce no per-row error, but an empty line set or an empty row
set surfaces an error. -/
theorem csv_parser_amended (text : Str) (line : Str) :
    parseCSV text = amendedParseCSV text ∧
    ((parseRow line).isSome = true ↔
      (3 ≤ ((splitC ',' line).map trimStr).length ∧
       ((splitC ',' line).map trimStr).getD 0 [] ≠ [] ∧
       ((splitC ',' line).map trimStr).getD 2 [] ≠ [])) := by
  constructor
  · unfold parseCSV amendedParseCSV
    cases hl : (splitC '\n' text).filter lineKept with
    | nil => simp
    | cons l rest =>
      simp only [List.length_cons, List.drop_succ_cons, List.drop_zero]
      rw [if_neg (by simp)]
      cases hr : rest.filterMap parseRow with
      | nil => simp
      | cons r rs => simp
  · simp only [parseRow, List.length_map]
    by_cases h3 : (splitC ',' line).length < 3
    · rw [if_pos h3]
      simp only [Option.isSome_none, Bool.false_eq_true, false_iff]
      intro hcon
      exact absurd hcon.1 (by omega)
    · rw [if_neg h3]
      by_cases ha : ((splitC ',' line).map trimStr).getD 0 [] ≠ [] ∧
          ((splitC ',' line).map trimStr).getD 2 [] ≠ []
      · rw [if_pos ha]
        simp only [Option.isSome_some, true_iff]
        exact ⟨by omega, ha.1, ha.2⟩
      · rw [if_neg ha]
        simp only [Option.isSome_none, Bool.false_eq_true, false_iff]
        intro hcon
        exact ha ⟨hcon.2.1, hcon.2.2⟩

/-- Characters with equal code units are equal. -/
theorem char_toNat_inj {a b : Char} (h : a.toNat = b.toNat) : a = b := by
  apply Char.eq_of_val_eq
  exact UInt32.toNat.inj h

/-- Character comparison is `lt` exactly on smaller code units. -/
theorem cmpChar_lt_iff {a b : Char} : cmpChar a b = .lt ↔ a.toNat < b.toNat := by
  unfold cmpChar
  split_ifs <;> simp <;> omega

/-- Character comparison is `gt` exactly on larger code units. -/
theorem cmpChar_gt_iff {a b : Char} : cmpChar a b = .gt ↔ b.toNat < a.toNat := by
  unfold cmpChar
  split_ifs <;> simp <;> omega

/-- Character comparison is `eq` exactly on equal characters. -/
theorem cmpChar_eq_iff {a b : Char} : cmpChar a b = .eq ↔ a = b := by
  unfold cmpChar
  split_ifs with h1 h2
  · simp; intro he; subst he; omega
  · simp; intro he; subst he; omega
  · simp only [true_iff]
    exact char_toNat_inj (by omega)

/-- String comparison is `eq` exactly on equal strings. -/
theorem cmpStr_eq_iff : ∀ {s t : Str}, cmpStr s t = .eq ↔ s = t := by
  intro s
  induction s with
  | nil => intro t; cases t <;> simp [cmpStr]
  | cons x xs ih =>
    intro t
    cases t with
    | nil => simp [cmpStr]
    | cons y ys =>
      simp only [cmpStr]
      cases hxy : cmpChar x y with
      | lt =>
        simp only []
        constructor
        · intro h; cases h
        · rintro h
          have : x = y := by injection h
          rw [cmpChar_eq_iff.mpr this] at hxy
          cases hxy
      | gt =>
        simp only []
        constructor
        · intro h; cases h
        · rintro h
          have : x = y := by injection h
          rw [cmpChar_eq_iff.mpr this] at hxy
          cases hxy
      | eq =>
        have hxeq : x = y := cmpChar_eq_iff.mp hxy
        subst hxeq
        simp only [List.cons.injEq, true_and]
        exact ih

/-- Swapping the arguments of the string comparison swaps the outcome. -/
theorem cmpStr_swap : ∀ s t : Str, (cmpStr s t).swap = cmpStr t s := by
  intro s
  induction s with
  | nil => intro t; cases t <;> rfl
  | cons x xs ih =>
    intro t
    cases t with
    | nil => rfl
    | cons y ys =>
      simp only [cmpStr]
      cases hxy : cmpChar x y with
      | lt =>
        have : cmpChar y x = .gt := cmpChar_gt_iff.mpr (cmpChar_lt_iff.mp hxy)
        rw [this]
        rfl
      | gt =>
        have : cmpChar y x = .lt := cmpChar_lt_iff.mpr (cmpChar_gt_iff.mp hxy)
        rw [this]
        rfl
      | eq =>
        have hxeq : x = y := cmpChar_eq_iff.mp hxy
        subst hxeq
        rw [cmpChar_eq_iff.mpr rfl]
        exact ih ys

/-- The non-strict string order (`not gt`) is transitive. -/
theorem cmpStr_le_trans : ∀ a b c : Str, cmpStr a b ≠ .gt → cmpStr b c ≠ .gt →
    cmpStr a c ≠ .gt := by
  intro a
  induction a with
  | nil =>
    intro b c _ _
    cases c <;> simp [cmpStr]
  | cons x xs ih =>
    intro b c hab hbc
    cases b with
    | nil => simp [cmpStr] at hab
    | cons y ys =>
      cases c with
      | nil => simp [cmpStr] at hbc
      | cons z zs =>
        simp only [cmpStr] at hab hbc ⊢
        cases hxy : cmpChar x y with
        | gt => rw [hxy] at hab; exact absurd rfl hab
        | lt =>
          cases hyz : cmpChar y z with
          | gt => rw [hyz] at hbc; exact absurd rfl hbc
          | lt =>
            have : cmpChar x z = .lt := cmpChar_lt_iff.mpr
              (Nat.lt_trans (cmpChar_lt_iff.mp hxy) (cmpChar_lt_iff.mp hyz))
            rw [this]
            simp
          | eq =>
            have hyzeq : y = z := cmpChar_eq_iff.mp hyz
            have : cmpChar x z = .lt := cmpChar_lt_iff.mpr
              (hyzeq ▸ cmpChar_lt_iff.mp hxy)
            rw [this]
            simp
        | eq =>
          have hxyeq : x = y := cmpChar_eq_iff.mp hxy
          subst hxyeq
          rw [hxy] at hab
          cases hyz : cmpChar x z with
          | gt => rw [hyz] at hbc; exact absurd rfl hbc
          | lt => simp
          | eq =>
            rw [hyz] at hbc
            exact ih ys zs hab hbc

/-- The non-strict string order is total. -/
theorem cmpStr_le_total (a b : Str) : cmpStr a b ≠ .gt ∨ cmpStr b a ≠ .gt := by
  by_cases h : cmpStr a b = .gt
  · right
    intro hba
    have := cmpStr_swap a b
    rw [h] at this
    rw [← this] at hba
    cases hba
  · left; exact h

/-- Membership after stable insertion. -/
theorem mem_insertLe {α : Type} {le : α → α → Bool} {x z : α} {l : List α} :
    z ∈ insertLe le x l ↔ z = x ∨ z ∈ l := by
  rw [(insertLe_perm le x l).mem_iff]
  simp

/-- Stable insertion into a sorted list keeps it sorted, given a total and
transitive comparator. -/
theorem insertLe_pairwise {α : Type} {le : α → α → Bool}
    (htot : ∀ a b, le a b = true ∨ le b a = true)
    (htrans : ∀ a b c, le a b = true → le b c = true → le a c = true)
    (x : α) :
    ∀ l : List α, l.Pairwise (fun a b => le a b = true) →
      (insertLe le x l).Pairwise (fun a b => le a b = true) := by
  intro l
  induction l with
  | nil => intro _; simp [insertLe]
  | cons y ys ih =>
    intro hp
    have hpy := List.pairwise_cons.mp hp
    unfold insertLe
    by_cases hxy : le x y = true
    · rw [if_pos hxy]
      refine List.pairwise_cons.mpr ⟨?_, hp⟩
      intro z hz
      rcases List.mem_cons.mp hz with rfl | hzys
      · exact hxy
      · exact htrans x y z hxy (hpy.1 z hzys)
    · rw [if_neg hxy]
      refine List.pairwise_cons.mpr ⟨?_, ih hpy.2⟩
      intro z hz
      rcases mem_insertLe.mp hz with rfl | hzys
      · rcases htot z y with h | h
        · exact absurd h hxy
        · exact h
      · exact hpy.1 z hzys

/-- The stable sort produces a sorted list for a total and transitive
comparator. -/
theorem isort_pairwise {α : Type} {le : α → α → Bool}
    (htot : ∀ a b, le a b = true ∨ le b a = true)
    (htrans : ∀ a b c, le a b = true → le b c = true → le a c = true)
    (l : List α) :
    (isort le l).Pairwise (fun a b => le a b = true) := by
  induction l with
  | nil => simp [isort]
  | cons x xs ih => exact insertLe_pairwise htot htrans x (isort le xs) ih

/-- Two lists that are permutations of each other and both sorted under an
asymmetric relation are equal. -/
theorem eq_of_perm_of_pairwise_strict {α : Type} {r : α → α → Prop}
    (hasym : ∀ a b, r a b → r b a → False) :
    ∀ l1 l2 : List α, l1.Perm l2 → l1.Pairwise r → l2.Pairwise r →
      l1 = l2 := by
  intro l1
  induction l1 with
  | nil =>
    intro l2 hp _ _
    exact (hp.nil_eq).symm ▸ rfl
  | cons a t1 ih =>
    intro l2 hp h1 h2
    cases l2 with
    | nil => exact absurd hp.symm.nil_eq (by simp)
    | cons b t2 =>
      by_cases hab : a = b
      · subst hab
        have ht : t1.Perm t2 := hp.cons_inv
        have := ih t2 ht (List.pairwise_cons.mp h1).2
          (List.pairwise_cons.mp h2).2
        rw [this]
      · exfalso
        have hamem : a ∈ b :: t2 := hp.mem_iff.mp (List.mem_cons_self a t1)
        have hat2 : a ∈ t2 := by
          rcases List.mem_cons.mp hamem with h | h
          · exact absurd h hab
          · exact h
        have hbmem : b ∈ a :: t1 := hp.symm.mem_iff.mp (List.mem_cons_self b t2)
        have hbt1 : b ∈ t1 := by
          rcases List.mem_cons.mp hbmem with h | h
          · exact absurd h.symm hab
          · exact h
        exact hasym a b ((List.pairwise_cons.mp h1).1 b hbt1)
          ((List.pairwise_cons.mp h2).1 a hat2)

/-- The comparator outcome is "less than or equal" exactly when it is not
`gt`. -/
theorem ordLe_eq_true_iff {o : Ordering} : ordLe o = true ↔ o ≠ .gt := by
  cases o <;> simp [ordLe]

/-- C5 counterexample: on a list of two distinct homes sharing an address,
the stable ascending and descending sorts both keep the original order, so
the descending result is not the reverse of the ascending one. -/
theorem address_sort_reverse_cex :
    sortHomes (fun _ => 0) "address_desc".data [demoHome, demoHome2] ≠
      (sortHomes (fun _ => 0) "address_asc".data [demoHome, demoHome2]).reverse := by
  decide

/-- C5 amended: when the homes' addresses are pairwise distinct, sorting by
address descending yields exactly the reverse of sorting by address
ascending. -/
theorem address_sort_reverse (dateVal : Str → Int) (l : List Home)
    (hnd : (l.map Home.address).Nodup) :
    sortHomes dateVal "address_desc".data l =
      (sortHomes dateVal "address_asc".data l).reverse := by
  have hA : sortHomes dateVal "address_asc".data l =
      isort (fun a b => ordLe (cmpStr a.address b.address)) l := by
    unfold sortHomes
    rw [if_neg (by decide), if_neg (by decide), if_pos rfl]
  have hD : sortHomes dateVal "address_desc".data l =
      isort (fun a b => ordLe (cmpStr b.address a.address)) l := by
    unfold sortHomes
    rw [if_neg (by decide), if_neg (by decide), if_neg (by decide), if_pos rfl]
  have htotA : ∀ a b : Home,
      ordLe (cmpStr a.address b.address) = true ∨
      ordLe (cmpStr b.address a.address) = true := by
    intro a b
    rcases cmpStr_le_total a.address b.address with h | h
    · exact Or.inl (ordLe_eq_true_iff.mpr h)
    · exact Or.inr (ordLe_eq_true_iff.mpr h)
  have htransA : ∀ a b c : Home,
      ordLe (cmpStr a.address b.address) = true →
      ordLe (cmpStr b.address c.address) = true →
      ordLe (cmpStr a.address c.address) = true := by
    intro a b c h1 h2
    exact ordLe_eq_true_iff.mpr (cmpStr_le_trans _ _ _
      (ordLe_eq_true_iff.mp h1) (ordLe_eq_true_iff.mp h2))
  have htotD : ∀ a b : Home,
      ordLe (cmpStr b.address a.address) = true ∨
      ordLe (cmpStr a.address b.address) = true :=
    fun a b => (htotA b a)
  have htransD : ∀ a b c : Home,
      ordLe (cmpStr b.address a.address) = true →
      ordLe (cmpStr c.address b.address) = true →
      ordLe (cmpStr c.address a.address) = true :=
    fun a b c h1 h2 => htransA c b a h2 h1
  have pA := @isort_pairwise Home
    (fun a b : Home => ordLe (cmpStr a.address b.address)) htotA htransA l
  have pD := @isort_pairwise Home
    (fun a b : Home => ordLe (cmpStr b.address a.address)) htotD htransD l
  have hasym : ∀ a b : Home, cmpStr b.address a.address = .lt →
      cmpStr a.address b.address = .lt → False := by
    intro a b h1 h2
    have := cmpStr_swap b.address a.address
    rw [h1] at this
    rw [h2] at this
    cases this
  have upgrade : ∀ m : List Home,
      m.Pairwise (fun a b => ordLe (cmpStr b.address a.address) = true) →
      (m.map Home.address).Nodup →
      m.Pairwise (fun a b => cmpStr b.address a.address = .lt) := by
    intro m hle hnodup
    have hne : m.Pairwise (fun a b => a.address ≠ b.address) :=
      List.pairwise_map.mp hnodup
    refine (hle.and hne).imp ?_
    intro a b hab
    have hnotgt := ordLe_eq_true_iff.mp hab.1
    cases hcase : cmpStr b.address a.address with
    | lt => rfl
    | gt => exact absurd hcase hnotgt
    | eq =>
      exact absurd (cmpStr_eq_iff.mp hcase).symm hab.2
  have hpermD : (isort (fun a b : Home =>
      ordLe (cmpStr b.address a.address)) l).Perm
      ((isort (fun a b : Home =>
        ordLe (cmpStr a.address b.address)) l).reverse) :=
    ((isort_perm _ l).trans (isort_perm _ l).symm).trans
      (List.reverse_perm _).symm
  have hndD : ((isort (fun a b : Home =>
      ordLe (cmpStr b.address a.address)) l).map Home.address).Nodup :=
    (((isort_perm _ l).map Home.address).nodup_iff).mpr hnd
  have hndR : (((isort (fun a b : Home =>
      ordLe (cmpStr a.address b.address)) l).reverse).map Home.address).Nodup := by
    refine ((List.Perm.map Home.address ?_).nodup_iff).mpr hnd
    exact (List.reverse_perm _).trans (isort_perm _ l)
  have pR : ((isort (fun a b : Home =>
      ordLe (cmpStr a.address b.address)) l).reverse).Pairwise
      (fun a b => ordLe (cmpStr b.address a.address) = true) :=
    List.pairwise_reverse.mpr pA
  rw [hD, hA]
  exact eq_of_perm_of_pairwise_strict hasym _ _ hpermD
    (upgrade _ pD hndD) (upgrade _ pR hndR)

/-- Witness for `address_sort_reverse`: two homes with distinct addresses. -/
theorem address_sort_reverse_witness :
    sortHomes (fun _ => 0) "address_desc".data
      [demoHome, { demoHome with id := "h3".data, address := "2 Beta St".data }] =
    (sortHomes (fun _ => 0) "address_asc".data
      [demoHome, { demoHome with id := "h3".data, address := "2 Beta St".data }]).reverse := by
  exact address_sort_reverse (fun _ => 0)
    [demoHome, { demoHome with id := "h3".data, address := "2 Beta St".data }]
    (by decide)
